import Mathlib

/-
Verification of the per-user preset bot (src/main.py, src/config.py).

The program keeps an in-memory index USER_COMMANDS of per-owner named
entries, a GROUP_TO_CLUB link table, and persists both either to a
Postgres database (when DATABASE_URL is set) or to JSON files.  Python
dicts are modelled as association lists (insertion-ordered, unique keys),
which matches dict semantics: an update of a present key keeps its
position, a new key is appended at the end.

Python keys USER_COMMANDS by str(user_id).  Since the decimal rendering
of integers is injective, the model keys the index by the integer id
itself; the str() indirection changes no observable behaviour.
-/

set_option maxHeartbeats 1000000

/-- A stored command value as it lives in USER_COMMANDS and in the JSON
file.  Text commands are stored as a raw string (set_get_message stores
update.message.text; load_user_commands_from_db stores the content
column).  Photo commands are stored as a dict with keys type, file_id,
caption; the file_id field models the Python string, with the empty
string also standing for an absent/None file_id (both are falsy at every
use site, so the collapse is not observable).  No write path of the
program produces a dict of type text, so that consumer branch is not
modelled. -/
inductive CmdData where
  | text (content : String)
  | photo (file_id : String) (caption : String)
deriving DecidableEq

/-- One row of the user_commands table: columns command_type, content,
file_id, caption (user_id and command_name are the key). -/
structure DbRow where
  command_type : String
  content : Option String
  file_id : Option String
  caption : Option String
deriving DecidableEq

/-- Association-list lookup, modelling Python dict indexing / .get. -/
def alGet [DecidableEq α] (k : α) : List (α × β) → Option β
  | [] => none
  | (k', v) :: rest => if k' = k then some v else alGet k rest

/-- Association-list insert-or-update, modelling Python dict assignment:
a present key is updated in place, an absent key is appended at the end. -/
def alSet [DecidableEq α] (k : α) (v : β) : List (α × β) → List (α × β)
  | [] => [(k, v)]
  | (k', v') :: rest => if k' = k then (k, v) :: rest else (k', v') :: alSet k v rest

/-- Association-list removal of a key, modelling Python del / SQL DELETE
by primary key (at most one occurrence exists in a well-formed table). -/
def alErase [DecidableEq α] (k : α) : List (α × β) → List (α × β)
  | [] => []
  | (k', v') :: rest => if k' = k then rest else (k', v') :: alErase k rest

/-- The in-memory index USER_COMMANDS: owner id to (name to value). -/
abbrev UserCommands := List (Int × List (String × CmdData))

/-- The user_commands table, keyed by (user_id, command_name). -/
abbrev DbTable := List ((Int × String) × DbRow)

/-- The database behind DATABASE_URL: the user_commands table and the
group_club table (chat_id to club_user_id). -/
structure DbState where
  user_commands : DbTable
  group_club : List (Int × Int)
deriving DecidableEq

/-- Mutable process state outside the conversation layer: the allow-list
ALLOWED_USER_IDS, the in-memory USER_COMMANDS and GROUP_TO_CLUB, the
optional database (none means no DATABASE_URL: the JSON file backend is
used), and the contents of the two JSON files.  json.dump/json.load on
the values at hand (strings and string-keyed dicts of strings) is an
exact round trip, so the file contents are modelled at the same type as
the in-memory data. -/
structure Env where
  allowed : List Int
  user_commands : UserCommands
  group_to_club : List (Int × Int)
  db : Option DbState
  data_file : UserCommands
  group_club_file : List (Int × Int)
deriving DecidableEq

/-- ADMIN_USER_IDS from src/config.py; ALLOWED_USER_IDS = set(ADMIN_USER_IDS). -/
def ADMIN_USER_IDS : List Int := [493310710, 6713100304, 8318575265]

/-- is_allowed: an empty allow-list admits everyone, otherwise membership. -/
def is_allowed (uid : Int) (allowedL : List Int) : Bool :=
  allowedL.isEmpty || allowedL.contains uid

/-- How both database loaders (load_user_commands_from_db and
load_club_command_from_db) turn a row into an in-memory value: rows of
type photo become the photo dict (file_id, caption or ""), every other
row becomes the raw content string.  NULL columns are read as "" (the
loaders write caption or "" / file_id or "" / the content column, and
every write of the program stores a string in the column it later
reads). -/
def rowToCmdData (r : DbRow) : CmdData :=
  if r.command_type = "photo" then .photo (r.file_id.getD "") (r.caption.getD "")
  else .text (r.content.getD "")

/-- The row written by save_user_command_to_db: INSERT .. ON CONFLICT
(user_id, command_name) DO UPDATE.  The update branch only sets the
columns listed in the SQL (photo: command_type, file_id, caption; text:
command_type, content) and keeps the other columns of the old row. -/
def upsertRow (old : Option DbRow) (v : CmdData) : DbRow :=
  match v, old with
  | .photo f c, some r => { r with command_type := "photo", file_id := some f, caption := some c }
  | .photo f c, none => ⟨"photo", none, some f, some c⟩
  | .text s, some r => { r with command_type := "text", content := some s }
  | .text s, none => ⟨"text", some s, none, none⟩

/-- save_user_command_to_db, database branch: upsert one row. -/
def dbSaveUserCommand (uid : Int) (name : String) (v : CmdData) (t : DbTable) : DbTable :=
  alSet (uid, name) (upsertRow (alGet (uid, name) t) v) t

/-- One iteration of the load_user_commands_from_db row loop:
USER_COMMANDS[user_id] gets a fresh empty dict if absent, then the
command name is assigned. -/
def dbLoadRow (uc : UserCommands) (e : (Int × String) × DbRow) : UserCommands :=
  alSet e.1.1 (alSet e.1.2 (rowToCmdData e.2) ((alGet e.1.1 uc).getD [])) uc

/-- load_user_commands_from_db, database branch: USER_COMMANDS = {} then
one dbLoadRow per fetched row, in table order. -/
def dbLoadUserCommands (t : DbTable) : UserCommands :=
  t.foldl dbLoadRow []

/-- Entry write into the in-memory index: ensure the owner bucket exists,
then assign the name (the combined effect of get_user_dict followed by
user_cmds[name] = command_data). -/
def ucSet (uid : Int) (name : String) (v : CmdData) (uc : UserCommands) : UserCommands :=
  alSet uid (alSet name v ((alGet uid uc).getD [])) uc

/-- Read one entry of one owner from the index. -/
def ucGet (uid : Int) (name : String) (uc : UserCommands) : Option CmdData :=
  alGet name ((alGet uid uc).getD [])

/-- The get_all(owner_id) contract of the store: the owner bucket of the
in-memory index (empty when the owner is unknown). -/
def get_all (uid : Int) (uc : UserCommands) : List (String × CmdData) :=
  (alGet uid uc).getD []

/-- save_user_command_to_db at the level of the whole state: with a
database the row is upserted; without one the fallback save_data_to_file
rewrites the JSON file from the in-memory index (atomically, via a temp
file and rename).  The best-effort fallback on a database exception is
not modelled; no claim concerns a failing backend. -/
def save_user_command_to_db (uid : Int) (name : String) (v : CmdData) (env : Env) : Env :=
  match env.db with
  | none => { env with data_file := env.user_commands }
  | some d =>
      { env with db := some { d with user_commands := dbSaveUserCommand uid name v d.user_commands } }

/-- delete_user_command_from_db: with a database the row is deleted;
without one the fallback rewrites the JSON file from the index. -/
def delete_user_command_from_db (uid : Int) (name : String) (env : Env) : Env :=
  match env.db with
  | none => { env with data_file := env.user_commands }
  | some d =>
      { env with db := some { d with user_commands := alErase (uid, name) d.user_commands } }

/-- load_user_commands_from_db at the level of the whole state: with a
database the index is rebuilt from the table, otherwise
load_data_from_file replaces it with the JSON file contents. -/
def load_user_commands_from_db (env : Env) : Env :=
  match env.db with
  | none => { env with user_commands := env.data_file }
  | some d => { env with user_commands := dbLoadUserCommands d.user_commands }

/-- The put(owner_id, name, variant) operation of the store as performed
by set_get_message: update the in-memory index, then persist through
save_user_command_to_db. -/
def put (uid : Int) (name : String) (v : CmdData) (env : Env) : Env :=
  save_user_command_to_db uid name v { env with user_commands := ucSet uid name v env.user_commands }

/-- The primary-key property of the user_commands table. -/
def dbKeysNodup (t : DbTable) : Prop :=
  (t.map Prod.fst).Nodup

instance (t : DbTable) : Decidable (dbKeysNodup t) :=
  inferInstanceAs (Decidable ((t.map Prod.fst).Nodup))

/-- Well-formedness of the in-memory index as a Python dict of dicts:
unique owner keys and unique names per bucket. -/
def ucWF (uc : UserCommands) : Prop :=
  (uc.map Prod.fst).Nodup ∧ ∀ e ∈ uc, (e.2.map Prod.fst).Nodup

instance (uc : UserCommands) : Decidable (ucWF uc) :=
  inferInstanceAs (Decidable (_ ∧ _))

theorem alGet_alSet_same [DecidableEq α] (k : α) (v : β) (l : List (α × β)) :
    alGet k (alSet k v l) = some v := by
  induction l with
  | nil => simp [alSet, alGet]
  | cons e rest ih =>
      obtain ⟨a, b⟩ := e
      by_cases h : a = k
      · simp only [alSet]
        rw [if_pos h]
        simp [alGet]
      · simp only [alSet]
        rw [if_neg h]
        simp only [alGet]
        rw [if_neg h]
        exact ih

theorem alGet_alSet_ne [DecidableEq α] (k k' : α) (v : β) (l : List (α × β))
    (h : k' ≠ k) : alGet k (alSet k' v l) = alGet k l := by
  induction l with
  | nil =>
      simp only [alSet, alGet]
      rw [if_neg h]
  | cons e rest ih =>
      obtain ⟨a, b⟩ := e
      by_cases he : a = k'
      · have hak : ¬ a = k := by
          rw [he]
          exact h
        simp only [alSet]
        rw [if_pos he]
        simp only [alGet]
        rw [if_neg h, if_neg hak]
      · simp only [alSet]
        rw [if_neg he]
        simp only [alGet]
        by_cases hk : a = k
        · rw [if_pos hk, if_pos hk]
        · rw [if_neg hk, if_neg hk]
          exact ih

theorem alSet_absent [DecidableEq α] (k : α) (v : β) (l : List (α × β))
    (h : alGet k l = none) : alSet k v l = l ++ [(k, v)] := by
  induction l with
  | nil => simp [alSet]
  | cons e rest ih =>
      obtain ⟨a, b⟩ := e
      simp only [alGet] at h
      by_cases he : a = k
      · rw [if_pos he] at h
        exact absurd h (by simp)
      · rw [if_neg he] at h
        simp only [alSet]
        rw [if_neg he, ih h]
        rfl

theorem alErase_absent [DecidableEq α] (k : α) (l : List (α × β))
    (h : alGet k l = none) : alErase k l = l := by
  induction l with
  | nil => simp [alErase]
  | cons e rest ih =>
      obtain ⟨a, b⟩ := e
      simp only [alGet] at h
      by_cases he : a = k
      · rw [if_pos he] at h
        exact absurd h (by simp)
      · rw [if_neg he] at h
        simp only [alErase]
        rw [if_neg he, ih h]

theorem alGet_alErase_ne [DecidableEq α] (k k' : α) (l : List (α × β))
    (h : k' ≠ k) : alGet k (alErase k' l) = alGet k l := by
  induction l with
  | nil => simp [alErase]
  | cons e rest ih =>
      obtain ⟨a, b⟩ := e
      by_cases he : a = k'
      · have hak : ¬ a = k := by
          rw [he]
          exact h
        simp only [alErase]
        rw [if_pos he]
        simp only [alGet]
        rw [if_neg hak]
      · simp only [alErase]
        rw [if_neg he]
        simp only [alGet]
        by_cases hk : a = k
        · rw [if_pos hk, if_pos hk]
        · rw [if_neg hk, if_neg hk]
          exact ih

theorem alGet_eq_none [DecidableEq α] (k : α) (l : List (α × β))
    (h : k ∉ l.map Prod.fst) : alGet k l = none := by
  induction l with
  | nil => rfl
  | cons e rest ih =>
      obtain ⟨a, b⟩ := e
      simp only [List.map_cons, List.mem_cons] at h
      push_neg at h
      simp only [alGet]
      rw [if_neg fun hc => h.1 hc.symm]
      exact ih h.2

theorem alGet_alErase_same [DecidableEq α] (k : α) (l : List (α × β))
    (h : (l.map Prod.fst).Nodup) : alGet k (alErase k l) = none := by
  induction l with
  | nil => rfl
  | cons e rest ih =>
      obtain ⟨a, b⟩ := e
      simp only [List.map_cons, List.nodup_cons] at h
      by_cases he : a = k
      · simp only [alErase]
        rw [if_pos he]
        apply alGet_eq_none
        rw [← he]
        exact h.1
      · simp only [alErase]
        rw [if_neg he]
        simp only [alGet]
        rw [if_neg he]
        exact ih h.2

theorem alGet_mem [DecidableEq α] (k : α) (v : β) (l : List (α × β))
    (h : alGet k l = some v) : (k, v) ∈ l := by
  induction l with
  | nil => simp [alGet] at h
  | cons e rest ih =>
      obtain ⟨a, b⟩ := e
      simp only [alGet] at h
      by_cases he : a = k
      · rw [if_pos he] at h
        injection h with hbv
        subst he
        subst hbv
        exact List.mem_cons_self _ _
      · rw [if_neg he] at h
        exact List.mem_cons_of_mem _ (ih h)

theorem mem_keys_alSet [DecidableEq α] (a k : α) (v : β) (l : List (α × β)) :
    a ∈ (alSet k v l).map Prod.fst ↔ a = k ∨ a ∈ l.map Prod.fst := by
  induction l with
  | nil => simp [alSet]
  | cons e rest ih =>
      obtain ⟨x, y⟩ := e
      by_cases he : x = k
      · simp only [alSet]
        rw [if_pos he]
        subst he
        simp only [List.map_cons, List.mem_cons]
        tauto
      · simp only [alSet]
        rw [if_neg he]
        simp only [List.map_cons, List.mem_cons, ih]
        tauto

theorem nodup_keys_alSet [DecidableEq α] (k : α) (v : β) (l : List (α × β))
    (h : (l.map Prod.fst).Nodup) : ((alSet k v l).map Prod.fst).Nodup := by
  induction l with
  | nil => simp [alSet]
  | cons e rest ih =>
      obtain ⟨x, y⟩ := e
      simp only [List.map_cons, List.nodup_cons] at h
      by_cases he : x = k
      · simp only [alSet]
        rw [if_pos he]
        simp only [List.map_cons, List.nodup_cons]
        subst he
        exact h
      · simp only [alSet]
        rw [if_neg he]
        simp only [List.map_cons, List.nodup_cons]
        constructor
        · intro hc
          rcases (mem_keys_alSet x k v rest).mp hc with h1 | h2
          · exact he h1
          · exact h.1 h2
        · exact ih h.2

theorem dbKeysNodup_save (uid : Int) (name : String) (v : CmdData) (t : DbTable)
    (h : dbKeysNodup t) : dbKeysNodup (dbSaveUserCommand uid name v t) :=
  nodup_keys_alSet _ _ _ h

theorem rowToCmdData_upsertRow (old : Option DbRow) (v : CmdData) :
    rowToCmdData (upsertRow old v) = v := by
  cases v with
  | text s => cases old <;> simp [upsertRow, rowToCmdData]
  | photo f c => cases old <;> simp [upsertRow, rowToCmdData]

theorem ucGet_ucSet_same (uid : Int) (name : String) (v : CmdData) (uc : UserCommands) :
    ucGet uid name (ucSet uid name v uc) = some v := by
  unfold ucGet ucSet
  rw [alGet_alSet_same]
  simp only [Option.getD_some]
  exact alGet_alSet_same name v _

theorem ucGet_ucSet_ne (uid uid' : Int) (name name' : String) (v : CmdData)
    (uc : UserCommands) (h : (uid', name') ≠ (uid, name)) :
    ucGet uid name (ucSet uid' name' v uc) = ucGet uid name uc := by
  unfold ucGet ucSet
  by_cases hu : uid' = uid
  · subst hu
    have hn : name' ≠ name := by
      intro hc
      exact h (by rw [hc])
    rw [alGet_alSet_same]
    simp only [Option.getD_some]
    exact alGet_alSet_ne name name' v _ hn
  · rw [alGet_alSet_ne uid uid' _ _ hu]

/-- Rows whose key differs from (uid, name) never touch that slot of the
index being rebuilt by the load loop. -/
theorem dbLoad_frame (t : DbTable) (uc : UserCommands) (uid : Int) (name : String)
    (h : ∀ e ∈ t, e.1 ≠ (uid, name)) :
    ucGet uid name (t.foldl dbLoadRow uc) = ucGet uid name uc := by
  induction t generalizing uc with
  | nil => rfl
  | cons e rest ih =>
      simp only [List.foldl_cons]
      rw [ih _ fun e' he' => h e' (List.mem_cons_of_mem e he')]
      have he : (e.1.1, e.1.2) ≠ (uid, name) := by
        have hh := h e (List.mem_cons_self e rest)
        simpa using hh
      exact ucGet_ucSet_ne _ _ _ _ _ _ he

/-- Rebuilding the index from a table with unique keys maps each row key
to the interpretation of its row. -/
theorem dbLoad_lookup (t : DbTable) (uc : UserCommands) (k : Int × String) (r : DbRow)
    (hn : dbKeysNodup t) (hg : alGet k t = some r) :
    ucGet k.1 k.2 (t.foldl dbLoadRow uc) = some (rowToCmdData r) := by
  obtain ⟨k1, k2⟩ := k
  induction t generalizing uc with
  | nil => simp [alGet] at hg
  | cons e rest ih =>
      obtain ⟨ek, er⟩ := e
      unfold dbKeysNodup at hn
      simp only [List.map_cons, List.nodup_cons] at hn
      simp only [alGet] at hg
      by_cases he : ek = (k1, k2)
      · rw [if_pos he] at hg
        injection hg with hg
        subst hg
        simp only [List.foldl_cons]
        rw [dbLoad_frame rest _ k1 k2 ?_]
        · subst he
          exact ucGet_ucSet_same _ _ _ _
        · intro e' he' hc
          apply hn.1
          rw [he]
          exact List.mem_map.mpr ⟨e', he', by rw [hc]⟩
      · rw [if_neg he] at hg
        simp only [List.foldl_cons]
        exact ih _ hn.2 hg

/-- A concrete state with an empty database configured (DATABASE_URL set,
both tables empty), used by witnesses. -/
def envDbEmpty : Env :=
  { allowed := [], user_commands := [], group_to_club := [],
    db := some ⟨[], []⟩, data_file := [], group_club_file := [] }

/-- C1: for every owner id, name and variant (text content, or photo file
reference plus caption), put followed by get_all returns the variant
unchanged, both on the live index and after a full reload from the active
backend; with env.db present this is the durable backend (row upsert then
load_user_commands_from_db), with env.db absent it is the JSON file
backend (save_data_to_file then load_data_from_file).  The hypothesis is
the primary-key uniqueness of the user_commands table. -/
theorem put_get_all_roundtrip (uid : Int) (name : String) (v : CmdData) (env : Env)
    (hdb : ∀ d, env.db = some d → dbKeysNodup d.user_commands) :
    alGet name (get_all uid (put uid name v env).user_commands) = some v
    ∧ alGet name
        (get_all uid (load_user_commands_from_db (put uid name v env)).user_commands)
      = some v := by
  cases henv : env.db with
  | none =>
      constructor
      · show ucGet uid name (put uid name v env).user_commands = some v
        simp only [put, save_user_command_to_db, henv]
        exact ucGet_ucSet_same _ _ _ _
      · show ucGet uid name
          (load_user_commands_from_db (put uid name v env)).user_commands = some v
        simp only [put, save_user_command_to_db, load_user_commands_from_db, henv]
        exact ucGet_ucSet_same _ _ _ _
  | some d =>
      constructor
      · show ucGet uid name (put uid name v env).user_commands = some v
        simp only [put, save_user_command_to_db, henv]
        exact ucGet_ucSet_same _ _ _ _
      · show ucGet uid name
          (load_user_commands_from_db (put uid name v env)).user_commands = some v
        simp only [put, save_user_command_to_db, load_user_commands_from_db, henv]
        have hn : dbKeysNodup (dbSaveUserCommand uid name v d.user_commands) :=
          dbKeysNodup_save _ _ _ _ (hdb d henv)
        have hg : alGet (uid, name) (dbSaveUserCommand uid name v d.user_commands)
            = some (upsertRow (alGet (uid, name) d.user_commands) v) :=
          alGet_alSet_same _ _ _
        have hl := dbLoad_lookup _ [] (uid, name) _ hn hg
        rw [rowToCmdData_upsertRow] at hl
        exact hl

/-- Witness for C1: a text entry round-trips through the durable backend
of a concrete state. -/
theorem put_get_all_roundtrip_witness :
    alGet "promo"
      (get_all 42 (load_user_commands_from_db
        (put 42 "promo" (CmdData.text "Hello\nWorld") envDbEmpty)).user_commands)
    = some (CmdData.text "Hello\nWorld") :=
  (put_get_all_roundtrip 42 "promo" (CmdData.text "Hello\nWorld") envDbEmpty
    (by intro d hd; cases hd; decide)).2

/-- C3: a second put on the same (owner, name), with an arbitrary new
variant (in particular a change of kind between text and photo), replaces
the stored variant: the live index and a full reload from the active
backend both return exactly the new variant.  On the durable backend the
SQL update keeps the columns of the other kind in the row, but every read
goes through rowToCmdData, which only consults the columns of the stored
kind, so no residue of the old variant is observable. -/
theorem put_overwrite_replaces (uid : Int) (name : String) (v1 v2 : CmdData) (env : Env)
    (hdb : ∀ d, env.db = some d → dbKeysNodup d.user_commands) :
    alGet name (get_all uid (put uid name v2 (put uid name v1 env)).user_commands) = some v2
    ∧ alGet name
        (get_all uid (load_user_commands_from_db
          (put uid name v2 (put uid name v1 env))).user_commands)
      = some v2 := by
  cases henv : env.db with
  | none =>
      constructor
      · show ucGet uid name (put uid name v2 (put uid name v1 env)).user_commands = some v2
        simp only [put, save_user_command_to_db, henv]
        exact ucGet_ucSet_same _ _ _ _
      · show ucGet uid name
          (load_user_commands_from_db
            (put uid name v2 (put uid name v1 env))).user_commands = some v2
        simp only [put, save_user_command_to_db, load_user_commands_from_db, henv]
        exact ucGet_ucSet_same _ _ _ _
  | some d =>
      constructor
      · show ucGet uid name (put uid name v2 (put uid name v1 env)).user_commands = some v2
        simp only [put, save_user_command_to_db, henv]
        exact ucGet_ucSet_same _ _ _ _
      · show ucGet uid name
          (load_user_commands_from_db
            (put uid name v2 (put uid name v1 env))).user_commands = some v2
        simp only [put, save_user_command_to_db, load_user_commands_from_db, henv]
        have h1 : dbKeysNodup (dbSaveUserCommand uid name v1 d.user_commands) :=
          dbKeysNodup_save _ _ _ _ (hdb d henv)
        have h2 : dbKeysNodup (dbSaveUserCommand uid name v2
            (dbSaveUserCommand uid name v1 d.user_commands)) :=
          dbKeysNodup_save _ _ _ _ h1
        have hg : alGet (uid, name)
            (dbSaveUserCommand uid name v2 (dbSaveUserCommand uid name v1 d.user_commands))
            = some (upsertRow
                (alGet (uid, name) (dbSaveUserCommand uid name v1 d.user_commands)) v2) :=
          alGet_alSet_same _ _ _
        have hl := dbLoad_lookup _ [] (uid, name) _ h2 hg
        rw [rowToCmdData_upsertRow] at hl
        exact hl

/-- Witness for C3: overwriting a text entry with a photo entry on the
durable backend leaves only the photo variant observable. -/
theorem put_overwrite_replaces_witness :
    alGet "promo"
      (get_all 7 (load_user_commands_from_db
        (put 7 "promo" (CmdData.photo "FILE1" "Sale!")
          (put 7 "promo" (CmdData.text "old text") envDbEmpty))).user_commands)
    = some (CmdData.photo "FILE1" "Sale!") :=
  (put_overwrite_replaces 7 "promo" (CmdData.text "old text")
    (CmdData.photo "FILE1" "Sale!") envDbEmpty (by intro d hd; cases hd; decide)).2

/-- Python str.strip(): drop leading and trailing whitespace. -/
def pyStrip (s : String) : String :=
  String.mk (((s.data.dropWhile Char.isWhitespace).reverse.dropWhile Char.isWhitespace).reverse)

/-- parse_command_name: strip whitespace, then drop one leading slash. -/
def parse_command_name (raw : String) : String :=
  match (pyStrip raw).data with
  | '/' :: rest => String.mk rest
  | _ => pyStrip raw

/-- RESERVED_CMDS from src/main.py (a Python set; only membership is used). -/
def RESERVED_CMDS : List String :=
  ["start", "help", "whoami", "set", "cancel", "delete", "mycmds", "deposit"]

/-- Whether a character belongs to the class [A-Za-z0-9_] of CMD_NAME_RE. -/
def isCmdNameChar (c : Char) : Bool :=
  (decide ('A' ≤ c) && decide (c ≤ 'Z'))
    || (decide ('a' ≤ c) && decide (c ≤ 'z'))
    || (decide ('0' ≤ c) && decide (c ≤ '9'))
    || c == '_'

/-- CMD_NAME_RE.match(name): the full name is 1 to 32 characters drawn
from [A-Za-z0-9_].  (The names tested by set_get_name have already been
stripped of whitespace, so the Python detail that a match of $ may stop
before one trailing newline is unreachable.) -/
def cmdNameMatches (s : String) : Bool :=
  decide (1 ≤ s.data.length) && decide (s.data.length ≤ 32) && s.data.all isCmdNameChar

/-- First line of a stored text, cut to 60 characters, as rendered by
mycmds_handler.  (Python indexes splitlines()[0], which would raise on an
empty string; text contents written by the program are never empty, and
the model returns "" there instead.) -/
def firstLine60 (s : String) : String :=
  String.mk ((s.data.takeWhile fun c => !(c == '\n')).take 60)

/-- Output actions towards the chat transport, in emission order:
reply_text, reply_text with an inline keyboard (rows of label and
callback_data pairs), reply_photo, edit_message_text of the button
prompt, and chat.send_message (the group announcement). -/
inductive OutMsg where
  | replyText (text : String)
  | replyTextKb (text : String) (kb : List (List (String × String)))
  | replyPhoto (file_id : String) (caption : Option String)
  | editMessage (text : String)
  | chatMessage (text : String)
deriving DecidableEq

/-- The per-user context.user_data scratch fields used by the two flows.
python-telegram-bot keys user_data by user id only, across chats. -/
structure UserData where
  pending_cmd_name : Option String
  pending_deposit_method : Option String
  pending_deposit_chat_id : Option Int
  pending_deposit_method_display : Option String
deriving DecidableEq

def emptyUserData : UserData := ⟨none, none, none, none⟩

/-- Result of a conversation handler: chat output, the returned
conversation state, and the updated process state and scratch. -/
structure HandlerResult where
  msgs : List OutMsg
  next : Int
  env : Env
  ud : UserData
deriving DecidableEq

/-- Conversation-state constants: SET_NAME, SET_MESSAGE = range(2);
DEPOSIT_CHOOSE, DEPOSIT_AMOUNT = range(2, 4); ConversationHandler.END. -/
def SET_NAME : Int := 0

def SET_MESSAGE : Int := 1

def DEPOSIT_CHOOSE : Int := 2

def DEPOSIT_AMOUNT : Int := 3

def CONV_END : Int := -1

/-- get_user_dict: USER_COMMANDS.setdefault(str(uid), {}) - returns the
bucket and inserts an empty one for a previously unseen owner. -/
def get_user_dict (uid : Int) (env : Env) : List (String × CmdData) × Env :=
  match alGet uid env.user_commands with
  | some d => (d, env)
  | none => ([], { env with user_commands := alSet uid [] env.user_commands })

/-- update_user_commands_menu only talks to the bot-menu API (the
cosmetic Menu Projector); its one effect on modelled state is the
get_user_dict(uid) call, which can insert an empty bucket. -/
def update_user_commands_menu (uid : Int) (env : Env) : Env :=
  (get_user_dict uid env).2

/-- get_club_for_chat: answer from the GROUP_TO_CLUB cache, else consult
the database once and cache a hit; None when unlinked on both. -/
def get_club_for_chat (chat_id : Int) (env : Env) : Option Int × Env :=
  match alGet chat_id env.group_to_club with
  | some c => (some c, env)
  | none =>
      match env.db with
      | some d =>
          match alGet chat_id d.group_club with
          | some c => (some c, { env with group_to_club := alSet chat_id c env.group_to_club })
          | none => (none, env)
      | none => (none, env)
  
/-- load_club_command_from_db: one-shot re-fetch of a single row for the
deposit flow; a hit is written back into USER_COMMANDS. -/
def load_club_command_from_db (club_id : Int) (name : String) (env : Env) :
    Option CmdData × Env :=
  match env.db with
  | none => (none, env)
  | some d =>
      match alGet (club_id, name) d.user_commands with
      | none => (none, env)
      | some row =>
          (some (rowToCmdData row),
           { env with user_commands := ucSet club_id name (rowToCmdData row) env.user_commands })

/-- Messages of up to 4096 characters, as sliced by reply_long
(range(0, len(text), 4096): an empty text sends nothing). -/
def chunkChars (cs : List Char) : List String :=
  if cs.isEmpty then []
  else String.mk (cs.take 4096) :: chunkChars (cs.drop 4096)
termination_by cs.length
decreasing_by
  simp only [List.length_drop]
  rename_i h
  simp only [List.isEmpty_eq_true] at h
  have : 0 < cs.length := List.length_pos.mpr h
  omega

/-- reply_long: split a text reply at the Telegram message-size ceiling. -/
def reply_long (s : String) : List OutMsg :=
  (chunkChars s.data).map OutMsg.replyText

/-- start_handler (also serving /help): static usage text, gated. -/
def start_handler (uid : Int) (env : Env) : List OutMsg :=
  if is_allowed uid env.allowed then
    [.replyText ("I store per-user commands.\n• /set — create a new command for yourself\n• /mycmds — list your commands\n• /delete <name> — remove one of your commands\n• /whoami — show your user ID\n\nAfter you add a command, just type /<name> to use it.")]
  else []

/-- help_handler delegates to start_handler. -/
def help_handler (uid : Int) (env : Env) : List OutMsg :=
  start_handler uid env

/-- whoami_handler: echo the invoking user id, ungated. -/
def whoami_handler (uid : Int) : List OutMsg :=
  [.replyText ("Your Telegram user ID: " ++ toString uid)]

/-- Insertion sort by name, modelling sorted(cmds.items()) (keys are
unique, so Python never compares the values). -/
def insertByName (e : String × CmdData) : List (String × CmdData) → List (String × CmdData)
  | [] => [e]
  | f :: rest => if e.1 ≤ f.1 then e :: f :: rest else f :: insertByName e rest

def sortByName : List (String × CmdData) → List (String × CmdData)
  | [] => []
  | e :: rest => insertByName e (sortByName rest)

/-- mycmds_handler: list the invoking user's entries (first line of text
content, or a fixed marker for photo entries). -/
def mycmds_handler (uid : Int) (env : Env) : List OutMsg × Env :=
  if is_allowed uid env.allowed then
    let p := get_user_dict uid env
    if p.1.isEmpty then
      ([.replyText "You haven\x27t added any commands yet. Use /set to create one."], p.2)
    else
      let lines := "Your commands:" :: (sortByName p.1).map fun e =>
        match e.2 with
        | .photo _ _ => "/" ++ e.1 ++ " — [Photo with caption]"
        | .text s => "/" ++ e.1 ++ " — " ++ firstLine60 s
      ([.replyText (String.intercalate "\n" lines)], p.2)
  else ([], env)

/-- delete_handler: /delete <name>; a present entry is removed from the
index and the backend, an absent one gets a not-found reply. -/
def delete_handler (uid : Int) (args : List String) (env : Env) : List OutMsg × Env :=
  if is_allowed uid env.allowed then
    match args with
    | [] => ([.replyText "Usage: /delete <command_name>"], env)
    | a :: _ =>
        let name := parse_command_name a
        let p := get_user_dict uid env
        if (alGet name p.1).isSome then
          let env2 := { p.2 with user_commands := alSet uid (alErase name p.1) p.2.user_commands }
          let env3 := delete_user_command_from_db uid name env2
          ([.replyText ("Deleted /" ++ name ++ ".")], update_user_commands_menu uid env3)
        else
          ([.replyText ("You don\x27t have a /" ++ name ++ " command.")], p.2)
  else ([], env)

/-- set_entry: gated entry of the DefineEntry flow; instructions, then
AwaitingName (a not-allowed user gets no reply and END, so no session). -/
def set_entry (uid : Int) (env : Env) : List OutMsg × Int :=
  if is_allowed uid env.allowed then
    ([.replyText "Okay! Send the command name (without the /). Example: referral\n\nSend /cancel to abort."],
     SET_NAME)
  else ([], CONV_END)

/-- set_get_name: validate the candidate name against CMD_NAME_RE and
RESERVED_CMDS; a failure re-prompts and stays in SET_NAME, a success
stores the name in user_data and moves to SET_MESSAGE, warning when the
name already exists. -/
def set_get_name (body : String) (uid : Int) (env : Env) (ud : UserData) : HandlerResult :=
  let name := parse_command_name body
  if !(cmdNameMatches name) then
    ⟨[.replyText "Invalid command name. Use only letters, numbers, or underscores (max 32). Try again."],
     SET_NAME, env, ud⟩
  else if name ∈ RESERVED_CMDS then
    ⟨[.replyText ("/" ++ name ++ " is reserved. Pick another name.")], SET_NAME, env, ud⟩
  else
    let p := get_user_dict uid env
    let msg :=
      if (alGet name p.1).isSome then
        "/" ++ name ++ " already exists for you. Send the new message to overwrite it.\n\nYou can send:\n• Text message (multi-line supported)\n• Photo with optional caption\n\nSend /cancel to abort."
      else
        "Great. Now send the message for /" ++ name ++ ".\n\nYou can send:\n• Text message (multi-line supported)\n• Photo with optional caption\n\nSend /cancel to abort."
    ⟨[.replyText msg], SET_MESSAGE, p.2, { ud with pending_cmd_name := some name }⟩

/-- The body of a non-command message as the handlers see it: text, a
photo (largest size file_id plus optional caption), or anything else
(sticker, video, ...) carrying neither text nor photo. -/
inductive MsgContent where
  | text (body : String)
  | photo (file_id : String) (caption : Option String)
  | other
deriving DecidableEq

/-- set_get_message: store the pending name as a text or photo entry,
persist it, refresh the menu, and end the conversation.  The final else
branch (neither photo nor text) exists in the source but the handler is
only registered for TEXT and PHOTO filters, so no dispatched update
reaches it. -/
def set_get_message (content : MsgContent) (uid : Int) (env : Env) (ud : UserData) :
    HandlerResult :=
  match ud.pending_cmd_name with
  | none => ⟨[], CONV_END, env, ud⟩
  | some name =>
      let p := get_user_dict uid env
      match content with
      | .photo file_id caption =>
          let data := CmdData.photo file_id (caption.getD "")
          let env2 := { p.2 with user_commands := alSet uid (alSet name data p.1) p.2.user_commands }
          let env3 := update_user_commands_menu uid (save_user_command_to_db uid name data env2)
          ⟨[.replyText ("Saved /" ++ name ++ " (photo command).")], CONV_END, env3,
           { ud with pending_cmd_name := none }⟩
      | .text body =>
          let data := CmdData.text body
          let env2 := { p.2 with user_commands := alSet uid (alSet name data p.1) p.2.user_commands }
          let env3 := update_user_commands_menu uid (save_user_command_to_db uid name data env2)
          ⟨[.replyText ("Saved /" ++ name ++ ".")], CONV_END, env3,
           { ud with pending_cmd_name := none }⟩
      | .other =>
          ⟨[.replyText "Please send text or a photo for your command."], CONV_END, p.2,
           { ud with pending_cmd_name := none }⟩

/-- set_cancel: abort the DefineEntry flow with no write. -/
def set_cancel (ud : UserData) : List OutMsg × Int × UserData :=
  ([.replyText "Cancelled."], CONV_END, { ud with pending_cmd_name := none })

/-- _deposit_method_keyboard: the fixed inline keyboard of payment
methods, each label paired with its callback_data. -/
def deposit_method_keyboard : List (List (String × String)) :=
  [[("Venmo", "deposit:botvenmo"), ("Zelle", "deposit:botzelle")],
   [("Apple Pay", "deposit:botstripe"), ("Debit Card", "deposit:botstripe")],
   [("Cashapp", "deposit:botcashapp"), ("Crypto", "deposit:botcrypto")]]

/-- _DEPOSIT_METHOD_DISPLAY: display names for the admin announcement. -/
def DEPOSIT_METHOD_DISPLAY : List (String × String) :=
  [("botvenmo", "Venmo"), ("botzelle", "Zelle"),
   ("botstripe", "Stripe (Apple Pay/Debit Card)"),
   ("botcashapp", "Cashapp"), ("botcrypto", "Crypto")]

/-- deposit_entry: groups only, and only when the chat already has a
club link; otherwise an explanatory refusal and END (so no session). -/
def deposit_entry (chatType : String) (chat_id : Int) (env : Env) :
    List OutMsg × Int × Env :=
  if chatType ≠ "group" ∧ chatType ≠ "supergroup" then
    ([.replyText "Use /deposit in a club group."], CONV_END, env)
  else
    match get_club_for_chat chat_id env with
    | (none, env2) =>
        ([.replyText "This group isn\x27t linked to a club. The club account must add the bot to this group."],
         CONV_END, env2)
    | (some _, env2) =>
        ([.replyTextKb "What method would you like to make a deposit with?" deposit_method_keyboard],
         DEPOSIT_CHOOSE, env2)

/-- deposit_method_chosen: record the chosen method, its display name
and the chat of the press in user_data, edit the prompt, and move to
AwaitingAmount.  data.split(":", 1)[1] after the startswith check is the
suffix after "deposit:" (8 characters). -/
def deposit_method_chosen (data : String) (chat_id : Int) (ud : UserData) :
    List OutMsg × Int × UserData :=
  if "deposit:".data.isPrefixOf data.data then
    let cmd_name := String.mk (data.data.drop 8)
    let method_display := (alGet cmd_name DEPOSIT_METHOD_DISPLAY).getD cmd_name
    let ud2 := { ud with pending_deposit_method := some cmd_name,
                         pending_deposit_chat_id := some chat_id,
                         pending_deposit_method_display := some method_display }
    ([.editMessage ("You selected " ++ method_display ++ ". How much would you like to deposit? Please select this message and hit reply to reply correctly")],
     DEPOSIT_AMOUNT, ud2)
  else ([], CONV_END, ud)

/-- deposit_amount_received: guard that the message comes from the chat
recorded at button time, resolve the club and its entry for the chosen
method (with the one-shot database re-fetch), then reply with the entry
content prefixed by the Amount line and announce the request into the
group.  In the photo branch, amount_line.rstrip() equals
"Amount: " ++ amount_text because amount_text is already stripped. -/
def deposit_amount_received (body : String) (chat_id : Int) (env : Env) (ud : UserData) :
    HandlerResult :=
  if ud.pending_deposit_chat_id ≠ some chat_id then ⟨[], CONV_END, env, ud⟩
  else
    let cmd_name := ud.pending_deposit_method.getD ""
    let method_display :=
      ud.pending_deposit_method_display.getD (if cmd_name = "" then "?" else cmd_name)
    let ud2 := { ud with pending_deposit_method := none, pending_deposit_chat_id := none,
                         pending_deposit_method_display := none }
    if cmd_name = "" then ⟨[], CONV_END, env, ud2⟩
    else
      match get_club_for_chat chat_id env with
      | (none, env2) =>
          ⟨[.replyText "This group is no longer linked to a club."], CONV_END, env2, ud2⟩
      | (some club_id, env2) =>
          let amount_text := pyStrip body
          let p := get_user_dict club_id env2
          let q : Option CmdData × Env :=
            match alGet cmd_name p.1 with
            | some d => (some d, p.2)
            | none => load_club_command_from_db club_id cmd_name p.2
          match q with
          | (none, env3) =>
              ⟨[.replyText "This club hasn\x27t set up that payment method yet."],
               CONV_END, env3, ud2⟩
          | (some cmd_data, env3) =>
              let amount_line := if amount_text ≠ "" then "Amount: " ++ amount_text ++ "\n\n" else ""
              let reply : List OutMsg :=
                match cmd_data with
                | .photo file_id caption =>
                    let caption2 :=
                      if amount_text ≠ "" then "Amount: " ++ amount_text ++ "\n\n" ++ caption
                      else caption
                    if file_id ≠ "" then
                      [.replyPhoto file_id (if caption2 = "" then none else some caption2)]
                    else [.replyText "Error: Photo data is corrupted."]
                | .text s => [.replyText (amount_line ++ s)]
              let announce := OutMsg.chatMessage
                ("Deposit request for " ++ (if amount_text = "" then "(not specified)" else amount_text)
                  ++ " on " ++ method_display)
              ⟨reply ++ [announce], CONV_END, env3, ud2⟩

/-- deposit_cancel: abort the DepositRequest flow. -/
def deposit_cancel (ud : UserData) : List OutMsg × Int × UserData :=
  ([.replyText "Cancelled."], CONV_END,
   { ud with pending_deposit_method := none, pending_deposit_chat_id := none,
             pending_deposit_method_display := none })

/-- command_router: catch-all for commands; reserved names are a
defensive no-op, a miss gets a fixed unknown-command reply, a hit is
rendered as chunked text or as a photo with caption. -/
def command_router (cmd : String) (uid : Int) (env : Env) : List OutMsg × Env :=
  if is_allowed uid env.allowed then
    if cmd ∈ RESERVED_CMDS then ([], env)
    else
      let p := get_user_dict uid env
      match alGet cmd p.1 with
      | none =>
          ([.replyText "I don\x27t know that command for you. Use /mycmds or /set."], p.2)
      | some (.photo file_id caption) =>
          if file_id ≠ "" then ([.replyPhoto file_id (some caption)], p.2)
          else ([.replyText "Error: Photo data is corrupted."], p.2)
      | some (.text s) => (reply_long s, p.2)
  else ([], env)

/-- A conversation table of python-telegram-bot: per (chat_id, user_id)
key the current state of that conversation (both ConversationHandlers
run with per_chat and per_user). -/
abbrev Sessions := List ((Int × Int) × Int)

/-- The application state: process state plus the two conversation
tables and the per-user user_data map. -/
structure AppState where
  env : Env
  setSessions : Sessions
  depositSessions : Sessions
  userData : List (Int × UserData)
deriving DecidableEq

/-- The user_data dict of a user (created empty on first touch). -/
def udGet (uid : Int) (m : List (Int × UserData)) : UserData :=
  (alGet uid m).getD emptyUserData

/-- Store the state a conversation handler returned: END removes the
conversation, any other state is recorded under the key. -/
def applySession (key : Int × Int) (next : Int) (s : Sessions) : Sessions :=
  if next = CONV_END then alErase key s else alSet key next s

/-- An inbound update as dispatched by the application: a command (the
transport-parsed name and arguments of a /name[@bot] message), a plain
message, or an inline-button callback query. -/
inductive TgEvent where
  | cmd (name : String) (args : List String) (chatType : String) (chat_id user_id : Int)
  | msg (content : MsgContent) (chatType : String) (chat_id user_id : Int)
  | callback (data : String) (chat_id user_id : Int)

/-- The set_command_conv ConversationHandler on a command update: with
an active session only the /cancel fallback matches (its states hold
MessageHandlers that exclude commands); with no session only the /set
entry point matches.  none means the handler does not claim the update. -/
def setConvCmd (name : String) (chat uid : Int) (st : AppState) :
    Option (List OutMsg × AppState) :=
  match alGet (chat, uid) st.setSessions with
  | some _ =>
      if name = "cancel" then
        let r := set_cancel (udGet uid st.userData)
        some (r.1, { st with setSessions := applySession (chat, uid) r.2.1 st.setSessions,
                             userData := alSet uid r.2.2 st.userData })
      else none
  | none =>
      if name = "set" then
        let r := set_entry uid st.env
        some (r.1, { st with setSessions := applySession (chat, uid) r.2 st.setSessions })
      else none

/-- The deposit_conv ConversationHandler on a command update: /cancel in
an active session, /deposit as entry point otherwise. -/
def depositConvCmd (name chatType : String) (chat uid : Int) (st : AppState) :
    Option (List OutMsg × AppState) :=
  match alGet (chat, uid) st.depositSessions with
  | some _ =>
      if name = "cancel" then
        let r := deposit_cancel (udGet uid st.userData)
        some (r.1, { st with depositSessions := applySession (chat, uid) r.2.1 st.depositSessions,
                             userData := alSet uid r.2.2 st.userData })
      else none
  | none =>
      if name = "deposit" then
        let r := deposit_entry chatType chat st.env
        some (r.1, { st with env := r.2.2,
                             depositSessions := applySession (chat, uid) r.2.1 st.depositSessions })
      else none

/-- The set_command_conv ConversationHandler on a plain message: in
SET_NAME only filters.TEXT (non-command) matches, in SET_MESSAGE a TEXT
or a PHOTO message matches; anything else leaves the conversation
untouched and unclaimed. -/
def setConvMsg (content : MsgContent) (chat uid : Int) (st : AppState) :
    Option (List OutMsg × AppState) :=
  match alGet (chat, uid) st.setSessions with
  | none => none
  | some s =>
      if s = SET_NAME then
        match content with
        | .text body =>
            let r := set_get_name body uid st.env (udGet uid st.userData)
            some (r.msgs, { st with env := r.env,
                                    setSessions := applySession (chat, uid) r.next st.setSessions,
                                    userData := alSet uid r.ud st.userData })
        | _ => none
      else if s = SET_MESSAGE then
        match content with
        | .other => none
        | _ =>
            let r := set_get_message content uid st.env (udGet uid st.userData)
            some (r.msgs, { st with env := r.env,
                                    setSessions := applySession (chat, uid) r.next st.setSessions,
                                    userData := alSet uid r.ud st.userData })
      else none

/-- The deposit_conv ConversationHandler on a plain message: only a TEXT
message in DEPOSIT_AMOUNT matches. -/
def depositConvMsg (content : MsgContent) (chat uid : Int) (st : AppState) :
    Option (List OutMsg × AppState) :=
  match alGet (chat, uid) st.depositSessions with
  | none => none
  | some s =>
      if s = DEPOSIT_AMOUNT then
        match content with
        | .text body =>
            let r := deposit_amount_received body chat st.env (udGet uid st.userData)
            some (r.msgs, { st with env := r.env,
                                    depositSessions := applySession (chat, uid) r.next st.depositSessions,
                                    userData := alSet uid r.ud st.userData })
        | _ => none
      else none

/-- One step of the application dispatch, in handler registration order:
the five reserved CommandHandlers, then set_command_conv, then
deposit_conv, then (for commands) the catch-all router.  A callback
query can only be claimed by the CallbackQueryHandler registered for
DEPOSIT_CHOOSE with pattern deposit:; an update no handler claims is
dropped with no output and no state change. -/
def appStep (ev : TgEvent) (st : AppState) : List OutMsg × AppState :=
  match ev with
  | .cmd name args _chatType chat uid =>
      if name = "start" ∨ name = "help" then (start_handler uid st.env, st)
      else if name = "whoami" then (whoami_handler uid, st)
      else if name = "mycmds" then
        let r := mycmds_handler uid st.env
        (r.1, { st with env := r.2 })
      else if name = "delete" then
        let r := delete_handler uid args st.env
        (r.1, { st with env := r.2 })
      else
        match setConvCmd name chat uid st with
        | some r => r
        | none =>
            match depositConvCmd name _chatType chat uid st with
            | some r => r
            | none =>
                let r := command_router name uid st.env
                (r.1, { st with env := r.2 })
  | .msg content _chatType chat uid =>
      match setConvMsg content chat uid st with
      | some r => r
      | none =>
          match depositConvMsg content chat uid st with
          | some r => r
          | none => ([], st)
  | .callback data chat uid =>
      match alGet (chat, uid) st.depositSessions with
      | some s =>
          if s = DEPOSIT_CHOOSE ∧ "deposit:".data.isPrefixOf data.data then
            let r := deposit_method_chosen data chat (udGet uid st.userData)
            (r.1, { st with depositSessions := applySession (chat, uid) r.2.1 st.depositSessions,
                            userData := alSet uid r.2.2 st.userData })
          else ([], st)
      | none => ([], st)

/-- A concrete file-backend state: group chat 100 is linked to club 7,
and club 7 has a botvenmo text entry pay@venmo. -/
def c2Env : Env :=
  { allowed := [], user_commands := [(7, [("botvenmo", CmdData.text "pay@venmo")])],
    group_to_club := [(100, 7)], db := none, data_file := [], group_club_file := [] }

def c2St0 : AppState :=
  { env := c2Env, setSessions := [], depositSessions := [], userData := [] }

/-- C2: in group chat 100 linked to owner 7 whose botvenmo entry is the
text pay@venmo, the sequence /deposit, press of the Venmo button (whose
callback_data is deposit:botvenmo on the offered keyboard), then the
text 50 produces a reply equal to "Amount: 50" followed by a blank line
and pay@venmo, plus a separate announcement into the group mentioning
both 50 and Venmo. -/
theorem deposit_flow_scenario :
    (appStep (.cmd "deposit" [] "group" 100 2) c2St0).1
      = [.replyTextKb "What method would you like to make a deposit with?" deposit_method_keyboard]
    ∧ alGet "Venmo" (deposit_method_keyboard.headD []) = some "deposit:botvenmo"
    ∧ (appStep (.callback "deposit:botvenmo" 100 2)
          (appStep (.cmd "deposit" [] "group" 100 2) c2St0).2).1
        = [.editMessage "You selected Venmo. How much would you like to deposit? Please select this message and hit reply to reply correctly"]
    ∧ (appStep (.msg (.text "50") "group" 100 2)
        (appStep (.callback "deposit:botvenmo" 100 2)
          (appStep (.cmd "deposit" [] "group" 100 2) c2St0).2).2).1
      = [.replyText ("Amount: 50" ++ "\n\n" ++ "pay@venmo"),
         .chatMessage ("Deposit request for " ++ "50" ++ " on " ++ "Venmo")] := by
  refine ⟨?_, ?_, ?_, ?_⟩ <;> decide

/-- C4: /deposit in a non-group chat, or in a group chat with no link in
the cache nor in the database, only produces the explanatory refusal:
the application state (index, link registry, database, files, sessions,
user_data) is returned unchanged and no deposit session is created. -/
theorem deposit_refusal_no_mutation (chatType : String) (args : List String)
    (chat uid : Int) (st : AppState)
    (hsess : alGet (chat, uid) st.depositSessions = none) :
    ((chatType ≠ "group" ∧ chatType ≠ "supergroup") →
      appStep (.cmd "deposit" args chatType chat uid) st
        = ([.replyText "Use /deposit in a club group."], st))
    ∧ ((chatType = "group" ∨ chatType = "supergroup") →
        alGet chat st.env.group_to_club = none →
        (∀ d, st.env.db = some d → alGet chat d.group_club = none) →
        appStep (.cmd "deposit" args chatType chat uid) st
          = ([.replyText "This group isn\x27t linked to a club. The club account must add the bot to this group."], st)) := by
  have hset : setConvCmd "deposit" chat uid st = none := by
    unfold setConvCmd
    cases h : alGet (chat, uid) st.setSessions with
    | some s => simp
    | none => simp
  have happ : appStep (.cmd "deposit" args chatType chat uid) st
      = ((deposit_entry chatType chat st.env).1,
         { st with env := (deposit_entry chatType chat st.env).2.2,
                   depositSessions :=
                     applySession (chat, uid) (deposit_entry chatType chat st.env).2.1
                       st.depositSessions }) := by
    simp [appStep, hset, depositConvCmd, hsess]
  constructor
  · intro hchat
    have hde : deposit_entry chatType chat st.env
        = ([.replyText "Use /deposit in a club group."], CONV_END, st.env) := by
      unfold deposit_entry
      rw [if_pos hchat]
    rw [happ, hde]
    simp only [applySession, if_pos rfl, if_true, alErase_absent _ _ hsess]
  · intro hg hcache hdbn
    have hcond : ¬(chatType ≠ "group" ∧ chatType ≠ "supergroup") := by
      rcases hg with h | h <;> simp [h]
    have hclub : get_club_for_chat chat st.env = (none, st.env) := by
      unfold get_club_for_chat
      rw [hcache]
      simp only
      cases hd : st.env.db with
      | none => rfl
      | some d =>
          simp only
          rw [hdbn d hd]
    have hde : deposit_entry chatType chat st.env
        = ([.replyText "This group isn\x27t linked to a club. The club account must add the bot to this group."],
           CONV_END, st.env) := by
      unfold deposit_entry
      rw [if_neg hcond, hclub]
    rw [happ, hde]
    simp only [applySession, if_pos rfl, if_true, alErase_absent _ _ hsess]

/-- Witness for C4: a /deposit typed in a private chat of an empty
application state is refused with no state change. -/
theorem deposit_refusal_no_mutation_witness :
    appStep (.cmd "deposit" [] "private" 1 2)
        { env := envDbEmpty, setSessions := [], depositSessions := [], userData := [] }
      = ([.replyText "Use /deposit in a club group."],
         { env := envDbEmpty, setSessions := [], depositSessions := [], userData := [] }) :=
  (deposit_refusal_no_mutation "private" [] 1 2
      { env := envDbEmpty, setSessions := [], depositSessions := [], userData := [] }
      (by decide)).1 (by decide)

/-- A concrete state in the middle of the DefineEntry flow: the session
of chat 1 / user 2 is in SET_MESSAGE with pending name promo. -/
def c5St : AppState :=
  { env := { allowed := [], user_commands := [], group_to_club := [], db := none,
             data_file := [], group_club_file := [] },
    setSessions := [((1, 2), SET_MESSAGE)], depositSessions := [],
    userData := [(2, { emptyUserData with pending_cmd_name := some "promo" })] }

/-- Counterexample to C5: in the AwaitingContent state a sticker (a
message with neither text nor photo) produces NO reply at all - in
particular no re-prompt - because the SET_MESSAGE state only registers
TEXT and PHOTO MessageHandlers, so the re-prompt branch of
set_get_message is never dispatched to. -/
theorem sticker_no_reprompt_counterexample :
    (appStep (.msg .other "private" 1 2) c5St).1 = [] ∧ appStep (.msg .other "private" 1 2) c5St = ([], c5St) := by
  constructor <;> decide

/-- C5 as amended: a message that is neither photo nor text, sent while
the DefineEntry session is in AwaitingContent, is ignored silently: no
reply is sent (no re-prompt), no entry is written, no state changes, and
the session remains open in the same AwaitingContent state. -/
theorem sticker_in_awaiting_content_ignored (chatType : String) (chat uid : Int)
    (st : AppState) (hsess : alGet (chat, uid) st.setSessions = some SET_MESSAGE) :
    appStep (.msg .other chatType chat uid) st = ([], st)
    ∧ alGet (chat, uid) (appStep (.msg .other chatType chat uid) st).2.setSessions
        = some SET_MESSAGE := by
  have hset : setConvMsg .other chat uid st = none := by
    unfold setConvMsg
    rw [hsess]
    simp [SET_MESSAGE, SET_NAME]
  have hdep : depositConvMsg .other chat uid st = none := by
    unfold depositConvMsg
    cases h : alGet (chat, uid) st.depositSessions with
    | none => rfl
    | some s =>
        simp only
        by_cases hs : s = DEPOSIT_AMOUNT <;> simp [hs]
  have happ : appStep (.msg .other chatType chat uid) st = ([], st) := by
    simp [appStep, hset, hdep]
  exact ⟨happ, by rw [happ]; exact hsess⟩

/-- Witness for the amended C5 at the concrete mid-flow state. -/
theorem sticker_in_awaiting_content_ignored_witness :
    appStep (.msg .other "private" 1 2) c5St = ([], c5St) :=
  (sticker_in_awaiting_content_ignored "private" 1 2 c5St (by decide)).1

/-- C8: while the deposit session of (chat c, user u) is in
ChoosingMethod, a button press arriving from a different chat (where
that user has no deposit session) is ignored: no output, no recorded
scratch, no state change, and the session of (c, u) still in
ChoosingMethod.  The two ConversationHandlers key conversations by
(chat_id, user_id), so the press in the other chat reaches no handler. -/
theorem callback_other_chat_ignored (data : String) (c c' u : Int) (st : AppState)
    (hsess : alGet (c, u) st.depositSessions = some DEPOSIT_CHOOSE)
    (_hne : c' ≠ c)
    (hother : alGet (c', u) st.depositSessions = none) :
    appStep (.callback data c' u) st = ([], st)
    ∧ alGet (c, u) (appStep (.callback data c' u) st).2.depositSessions
        = some DEPOSIT_CHOOSE := by
  have happ : appStep (.callback data c' u) st = ([], st) := by
    simp only [appStep]
    rw [hother]
  exact ⟨happ, by rw [happ]; exact hsess⟩

/-- Witness for C8: a Venmo press from chat 200 while the session lives
in chat 100 changes nothing. -/
theorem callback_other_chat_ignored_witness :
    appStep (.callback "deposit:botvenmo" 200 2)
        { env := c2Env, setSessions := [], depositSessions := [((100, 2), DEPOSIT_CHOOSE)],
          userData := [] }
      = ([], { env := c2Env, setSessions := [], depositSessions := [((100, 2), DEPOSIT_CHOOSE)],
               userData := [] }) :=
  (callback_other_chat_ignored "deposit:botvenmo" 100 200 2
      { env := c2Env, setSessions := [], depositSessions := [((100, 2), DEPOSIT_CHOOSE)],
        userData := [] }
      (by decide) (by decide) (by decide)).1

/-- A name of 33 or more characters never matches CMD_NAME_RE. -/
theorem cmdNameMatches_false_of_long (s : String) (h : 33 ≤ s.data.length) :
    cmdNameMatches s = false := by
  unfold cmdNameMatches
  have h32 : decide (s.data.length ≤ 32) = false := by
    apply decide_eq_false
    omega
  rw [h32]
  simp

/-- C6: name validation of the DefineEntry flow accepts referral and
a_1 (moving to AwaitingContent with the name pending), and rejects
ab cd, every name of 33 or more characters, and every reserved name,
each rejection re-prompting and staying in AwaitingName with the state
and scratch untouched. -/
theorem name_validation (uid : Int) (env : Env) (ud : UserData) :
    ((set_get_name "referral" uid env ud).next = SET_MESSAGE
      ∧ (set_get_name "referral" uid env ud).ud.pending_cmd_name = some "referral")
    ∧ ((set_get_name "a_1" uid env ud).next = SET_MESSAGE
      ∧ (set_get_name "a_1" uid env ud).ud.pending_cmd_name = some "a_1")
    ∧ set_get_name "ab cd" uid env ud
        = ⟨[.replyText "Invalid command name. Use only letters, numbers, or underscores (max 32). Try again."],
           SET_NAME, env, ud⟩
    ∧ (∀ s : String, 33 ≤ (parse_command_name s).data.length →
        set_get_name s uid env ud
          = ⟨[.replyText "Invalid command name. Use only letters, numbers, or underscores (max 32). Try again."],
             SET_NAME, env, ud⟩)
    ∧ (∀ r ∈ RESERVED_CMDS,
        set_get_name r uid env ud
          = ⟨[.replyText ("/" ++ r ++ " is reserved. Pick another name.")], SET_NAME, env, ud⟩) := by
  refine ⟨⟨rfl, rfl⟩, ⟨rfl, rfl⟩, rfl, ?_, ?_⟩
  · intro s hs
    have hm : cmdNameMatches (parse_command_name s) = false :=
      cmdNameMatches_false_of_long _ hs
    simp only [set_get_name]
    rw [hm]
    rfl
  · intro r hr
    simp only [RESERVED_CMDS, List.mem_cons, List.not_mem_nil, or_false] at hr
    rcases hr with rfl | rfl | rfl | rfl | rfl | rfl | rfl | rfl <;> rfl

/-- Witness for C6: a 33-character name is rejected with the invalid-name
re-prompt, staying in AwaitingName. -/
theorem name_validation_witness :
    set_get_name "aaaaaaaaaaaaaaaaaaaaaaaaaaaaaaaaa" 1 envDbEmpty emptyUserData
      = ⟨[.replyText "Invalid command name. Use only letters, numbers, or underscores (max 32). Try again."],
         SET_NAME, envDbEmpty, emptyUserData⟩ :=
  (name_validation 1 envDbEmpty emptyUserData).2.2.2.1
    "aaaaaaaaaaaaaaaaaaaaaaaaaaaaaaaaa" (by decide)

/-- An empty file-backend state. -/
def envFileEmpty : Env :=
  { allowed := [], user_commands := [], group_to_club := [], db := none,
    data_file := [], group_club_file := [] }

/-- Counterexample to C7: /delete foo by owner 5, who has no stored
entries and no bucket in the index, replies not-found but does NOT leave
the state unchanged: the get_user_dict call inside delete_handler
inserts an empty bucket for owner 5 into the in-memory index. -/
theorem delete_absent_owner_counterexample :
    (delete_handler 5 ["foo"] envFileEmpty).1
      = [.replyText "You don\x27t have a /foo command."]
    ∧ (delete_handler 5 ["foo"] envFileEmpty).2 ≠ envFileEmpty
    ∧ (delete_handler 5 ["foo"] envFileEmpty).2.user_commands = [(5, [])] := by
  refine ⟨?_, ?_, ?_⟩ <;> decide

/-- Auxiliary: delete_user_command_from_db never changes the in-memory
index (it only touches the database or the JSON file). -/
theorem delete_db_keeps_index (uid : Int) (name : String) (e : Env) :
    (delete_user_command_from_db uid name e).user_commands = e.user_commands := by
  unfold delete_user_command_from_db
  cases h : e.db <;> simp

/-- Auxiliary: delete_user_command_from_db with a database erases the
one row. -/
theorem delete_db_db (uid : Int) (name : String) (e : Env) (d : DbState)
    (he : e.db = some d) :
    (delete_user_command_from_db uid name e).db
      = some { d with user_commands := alErase (uid, name) d.user_commands } := by
  unfold delete_user_command_from_db
  rw [he]

/-- Auxiliary: delete_user_command_from_db without a database rewrites
the JSON file from the in-memory index. -/
theorem delete_db_file (uid : Int) (name : String) (e : Env) (he : e.db = none) :
    (delete_user_command_from_db uid name e).data_file = e.user_commands := by
  unfold delete_user_command_from_db
  rw [he]

/-- C7 as amended: delete on an absent name replies not-found and leaves
every entry of every owner, the database and the JSON file unchanged
(the in-memory index may only gain an empty bucket for a previously
unseen owner, which no entry read can observe); delete on a present name
replies Deleted, removes exactly that one entry from the index and from
the active backend, and leaves every other (owner, name) slot of the
index and of the database untouched. -/
theorem delete_exact_removal (uid : Int) (a : String) (env : Env)
    (hallow : is_allowed uid env.allowed = true)
    (hwf : ucWF env.user_commands)
    (hdb : ∀ d, env.db = some d → dbKeysNodup d.user_commands) :
    (ucGet uid (parse_command_name a) env.user_commands = none →
      (delete_handler uid [a] env).1
          = [.replyText ("You don\x27t have a /" ++ parse_command_name a ++ " command.")]
        ∧ (∀ u n, ucGet u n (delete_handler uid [a] env).2.user_commands
            = ucGet u n env.user_commands)
        ∧ (delete_handler uid [a] env).2.db = env.db
        ∧ (delete_handler uid [a] env).2.data_file = env.data_file
        ∧ (delete_handler uid [a] env).2.group_to_club = env.group_to_club)
    ∧ (∀ v, ucGet uid (parse_command_name a) env.user_commands = some v →
      (delete_handler uid [a] env).1
          = [.replyText ("Deleted /" ++ parse_command_name a ++ ".")]
        ∧ ucGet uid (parse_command_name a)
            (delete_handler uid [a] env).2.user_commands = none
        ∧ (∀ u n, (u, n) ≠ (uid, parse_command_name a) →
            ucGet u n (delete_handler uid [a] env).2.user_commands
              = ucGet u n env.user_commands)
        ∧ (∀ d, env.db = some d →
            (delete_handler uid [a] env).2.db
                = some { d with user_commands := alErase (uid, parse_command_name a) d.user_commands }
              ∧ alGet (uid, parse_command_name a)
                  (alErase (uid, parse_command_name a) d.user_commands) = none
              ∧ (∀ k : Int × String, k ≠ (uid, parse_command_name a) →
                  alGet k (alErase (uid, parse_command_name a) d.user_commands)
                    = alGet k d.user_commands))
        ∧ (env.db = none →
            (delete_handler uid [a] env).2.data_file
              = (delete_handler uid [a] env).2.user_commands)) := by
  constructor
  · intro habs
    cases hbucket : alGet uid env.user_commands with
    | none =>
        have hres : delete_handler uid [a] env
            = ([.replyText ("You don\x27t have a /" ++ parse_command_name a ++ " command.")],
               { env with user_commands := alSet uid [] env.user_commands }) := by
          simp [delete_handler, hallow, get_user_dict, hbucket, alGet]
        rw [hres]
        refine ⟨rfl, ?_, rfl, rfl, rfl⟩
        intro u n
        by_cases hu : u = uid
        · subst hu
          unfold ucGet
          rw [alGet_alSet_same, hbucket]
          rfl
        · unfold ucGet
          rw [alGet_alSet_ne u uid _ _ fun hc => hu hc.symm]
    | some b =>
        have hnameb : alGet (parse_command_name a) b = none := by
          unfold ucGet at habs
          rw [hbucket] at habs
          simpa using habs
        have hres : delete_handler uid [a] env
            = ([.replyText ("You don\x27t have a /" ++ parse_command_name a ++ " command.")],
               env) := by
          simp [delete_handler, hallow, get_user_dict, hbucket, hnameb]
        rw [hres]
        exact ⟨rfl, fun u n => rfl, rfl, rfl, rfl⟩
  · intro v hv
    cases hbucket : alGet uid env.user_commands with
    | none =>
        exfalso
        unfold ucGet at hv
        rw [hbucket] at hv
        simp [alGet] at hv
    | some b =>
        have hnameb : alGet (parse_command_name a) b = some v := by
          unfold ucGet at hv
          rw [hbucket] at hv
          simpa using hv
        have hbnodup : (b.map Prod.fst).Nodup :=
          hwf.2 (uid, b) (alGet_mem _ _ _ hbucket)
        have hmenu : update_user_commands_menu uid
            (delete_user_command_from_db uid (parse_command_name a)
              { env with user_commands := alSet uid (alErase (parse_command_name a) b) env.user_commands })
            = delete_user_command_from_db uid (parse_command_name a)
              { env with user_commands := alSet uid (alErase (parse_command_name a) b) env.user_commands } := by
          unfold update_user_commands_menu get_user_dict
          rw [delete_db_keeps_index]
          simp only
          rw [alGet_alSet_same]
        have hres : delete_handler uid [a] env
            = ([.replyText ("Deleted /" ++ parse_command_name a ++ ".")],
               delete_user_command_from_db uid (parse_command_name a)
                 { env with user_commands := alSet uid (alErase (parse_command_name a) b) env.user_commands }) := by
          simp [delete_handler, hallow, get_user_dict, hbucket, hnameb, hmenu]
        rw [hres]
        refine ⟨rfl, ?_, ?_, ?_, ?_⟩
        · rw [delete_db_keeps_index]
          unfold ucGet
          simp only
          rw [alGet_alSet_same]
          simp only [Option.getD_some]
          exact alGet_alErase_same _ _ hbnodup
        · intro u n hne
          rw [delete_db_keeps_index]
          unfold ucGet
          simp only
          by_cases hu : u = uid
          · subst hu
            have hn : n ≠ parse_command_name a := by
              intro hc
              exact hne (by rw [hc])
            rw [alGet_alSet_same]
            simp only [Option.getD_some]
            rw [alGet_alErase_ne n _ b (Ne.symm hn), hbucket]
            rfl
          · rw [alGet_alSet_ne u uid _ _ fun hc => hu hc.symm]
        · intro d hd
          refine ⟨delete_db_db _ _ _ d hd, alGet_alErase_same _ _ (hdb d hd), ?_⟩
          intro k hk
          exact alGet_alErase_ne k _ d.user_commands (Ne.symm hk)
        · intro hdnone
          rw [delete_db_keeps_index, delete_db_file]
          exact hdnone

/-- Witness for the amended C7: owner 7 has promo and other entries,
owner 9 has one too; deleting promo removes exactly it. -/
def c7Env : Env :=
  { allowed := [],
    user_commands := [(7, [("promo", CmdData.text "hello"), ("other", CmdData.text "o")]),
                      (9, [("promo", CmdData.text "nine")])],
    group_to_club := [], db := none,
    data_file := [], group_club_file := [] }

theorem delete_exact_removal_witness :
    (delete_handler 7 ["promo"] c7Env).1 = [.replyText "Deleted /promo."]
    ∧ ucGet 7 "promo" (delete_handler 7 ["promo"] c7Env).2.user_commands = none := by
  have h := (delete_exact_removal 7 "promo" c7Env (by decide) (by decide)
    (by intro d hd; cases hd)).2 (CmdData.text "hello") (by decide)
  exact ⟨h.1, h.2.1⟩

/-- C9: with a non-empty allow-list, an identity outside it gets a
silent no-op from every gated handler (start, help, mycmds, delete, the
/set entry including no session creation, and the catch-all router):
no reply and no state change; and an empty allow-list admits everyone. -/
theorem authorization_silent_noop (uid : Int) (env : Env) (args : List String)
    (c : String) (hne : env.allowed ≠ []) (hmem : uid ∉ env.allowed) :
    start_handler uid env = []
    ∧ help_handler uid env = []
    ∧ mycmds_handler uid env = ([], env)
    ∧ delete_handler uid args env = ([], env)
    ∧ set_entry uid env = ([], CONV_END)
    ∧ command_router c uid env = ([], env)
    ∧ (∀ u : Int, is_allowed u [] = true) := by
  have hfalse : is_allowed uid env.allowed = false := by
    unfold is_allowed
    rw [Bool.or_eq_false_iff]
    constructor
    · rw [List.isEmpty_eq_false]
      exact hne
    · rw [← Bool.not_eq_true, List.contains_iff_exists_mem_beq]
      intro hc
      rcases hc with ⟨x, hx, hbeq⟩
      have hux : uid = x := by simpa using hbeq
      exact hmem (hux ▸ hx)
  refine ⟨?_, ?_, ?_, ?_, ?_, ?_, fun u => rfl⟩
  · simp [start_handler, hfalse]
  · simp [help_handler, start_handler, hfalse]
  · simp [mycmds_handler, hfalse]
  · simp [delete_handler, hfalse]
  · simp [set_entry, hfalse]
  · simp [command_router, hfalse]

/-- Witness for C9: user 2 against the allow-list [1]. -/
theorem authorization_silent_noop_witness :
    mycmds_handler 2 { envFileEmpty with allowed := [1] }
      = ([], { envFileEmpty with allowed := [1] }) :=
  (authorization_silent_noop 2 { envFileEmpty with allowed := [1] } [] "foo"
    (by decide) (by decide)).2.2.1

/-- C10 (implicit): read paths mutate the index.  For an owner with no
bucket in the in-memory index, each of the three lookups - listing via
/mycmds, routing an unknown command, resolving a deposit method for the
linked owner - appends an empty bucket for that owner id to
USER_COMMANDS (get_user_dict is setdefault), so the set of owner keys
grows on reads, not only on writes. -/
theorem reads_insert_empty_bucket (uid club chat : Int) (c body m : String)
    (env : Env) (ud : UserData) :
    (is_allowed uid env.allowed = true → alGet uid env.user_commands = none →
      mycmds_handler uid env
        = ([.replyText "You haven\x27t added any commands yet. Use /set to create one."],
           { env with user_commands := env.user_commands ++ [(uid, [])] }))
    ∧ (is_allowed uid env.allowed = true → c ∉ RESERVED_CMDS →
        alGet uid env.user_commands = none →
      command_router c uid env
        = ([.replyText "I don\x27t know that command for you. Use /mycmds or /set."],
           { env with user_commands := env.user_commands ++ [(uid, [])] }))
    ∧ (ud.pending_deposit_chat_id = some chat → ud.pending_deposit_method = some m →
        m ≠ "" → alGet chat env.group_to_club = some club →
        alGet club env.user_commands = none → env.db = none →
      (deposit_amount_received body chat env ud).env.user_commands
          = env.user_commands ++ [(club, [])]
        ∧ (deposit_amount_received body chat env ud).msgs
          = [.replyText "This club hasn\x27t set up that payment method yet."]) := by
  refine ⟨?_, ?_, ?_⟩
  · intro h1 h2
    have hres : mycmds_handler uid env
        = ([.replyText "You haven\x27t added any commands yet. Use /set to create one."],
           { env with user_commands := alSet uid [] env.user_commands }) := by
      simp [mycmds_handler, h1, get_user_dict, h2]
    rw [hres, alSet_absent uid [] env.user_commands h2]
  · intro h1 hres2 h2
    have hres : command_router c uid env
        = ([.replyText "I don\x27t know that command for you. Use /mycmds or /set."],
           { env with user_commands := alSet uid [] env.user_commands }) := by
      simp [command_router, h1, hres2, get_user_dict, h2, alGet]
    rw [hres, alSet_absent uid [] env.user_commands h2]
  · intro h1 h2 h3 h4 h5 h6
    have hclub : get_club_for_chat chat env = (some club, env) := by
      unfold get_club_for_chat
      rw [h4]
    have hload : load_club_command_from_db club m
        { env with user_commands := alSet club [] env.user_commands }
        = (none, { env with user_commands := alSet club [] env.user_commands }) := by
      unfold load_club_command_from_db
      simp only
      rw [h6]
    have hres : deposit_amount_received body chat env ud
        = ⟨[.replyText "This club hasn\x27t set up that payment method yet."], CONV_END,
           { env with user_commands := alSet club [] env.user_commands },
           { ud with pending_deposit_method := none, pending_deposit_chat_id := none, pending_deposit_method_display := none }⟩ := by
      simp [deposit_amount_received, h1, h2, h3, hclub, get_user_dict, h5, alGet, hload]
    rw [hres]
    constructor
    · simp only
      exact alSet_absent club [] env.user_commands h5
    · rfl

/-- Witness for C10: /mycmds by the unseen owner 3 inserts an empty
bucket for 3. -/
theorem reads_insert_empty_bucket_witness :
    mycmds_handler 3 envFileEmpty
      = ([.replyText "You haven\x27t added any commands yet. Use /set to create one."],
         { envFileEmpty with user_commands := [(3, [])] }) :=
  (reads_insert_empty_bucket 3 0 0 "c" "b" "m" envFileEmpty emptyUserData).1
    (by decide) (by decide)
